import Mathlib

set_option maxRecDepth 8000

/-! Verification of the gopull image tool's core logic: the image-reference
parser (pkgs/image/image.go), the destination-tag resolver
(cmd/utis.go, cmd/copy.go / cmd/download.go) and the copy orchestrator's
error handling (cmd/copy.go, cmd/utis.go).  Go strings are modelled as
`List Char`; fallible Go functions return `Except`; the one Go runtime
panic reachable in this code (an out-of-range string slice) is modelled
as an explicit `panicked` result. -/

/-- Character list of a string literal (Go strings are modelled as `List Char`). -/
def str (s : String) : List Char := s.data

/-- Decidable equality for `Except`, so concrete runs of the embedded
functions can be settled by `decide`. -/
instance {ε α : Type} [DecidableEq ε] [DecidableEq α] : DecidableEq (Except ε α) := fun x y =>
  match x, y with
  | .error a, .error b =>
    if h : a = b then isTrue (by rw [h]) else isFalse (fun hh => h (Except.error.inj hh))
  | .error _, .ok _ => isFalse (fun hh => Except.noConfusion hh)
  | .ok _, .error _ => isFalse (fun hh => Except.noConfusion hh)
  | .ok a, .ok b =>
    if h : a = b then isTrue (by rw [h]) else isFalse (fun hh => h (Except.ok.inj hh))

/-- Models Go `strings.Split(image, "@sha256:")` from splitDigest
(pkgs/image/image.go): splits on every non-overlapping, leftmost
occurrence of the literal marker `@sha256:`, keeping empty chunks. -/
def splitMarker : List Char → List (List Char)
  | '@' :: 's' :: 'h' :: 'a' :: '2' :: '5' :: '6' :: ':' :: rest => [] :: splitMarker rest
  | c :: rest =>
    match splitMarker rest with
    | [] => [[c]]
    | chunk :: chunks => (c :: chunk) :: chunks
  | [] => [[]]

/-- Models Go `strings.Contains(image, "@sha256:")`: the marker occurs
iff splitting on it yields at least two chunks. -/
def containsMarker (image : List Char) : Bool :=
  decide (2 ≤ (splitMarker image).length)

/-- Errors produced by ParseImageStr (pkgs/image/image.go): the
"invalid digest format in image string" error of splitDigest, and the
"failed to parse image" error wrapping a reference-normalization
failure, carrying the offending string. -/
inductive ParseError where
  | invalidDigestFormat
  | invalidReference (s : List Char)
deriving DecidableEq

/-- The literal `"sha256:"` prepended to the split-off digest suffix. -/
def sha256Head : List Char := str "sha256:"

/-- splitDigest (pkgs/image/image.go lines 43-52): if the image string
contains `@sha256:`, split on it; exactly two parts are required,
otherwise the invalid-digest-format error; on success return the name
part and `"sha256:" + suffix`. -/
def splitDigest (image : List Char) : Except ParseError (List Char × List Char) :=
  if containsMarker image then
    let parts := splitMarker image
    if parts.length ≠ 2 then .error .invalidDigestFormat
    else .ok (parts.getD 0 [], sha256Head ++ parts.getD 1 [])
  else .ok (image, [])

/-- Splits a char list on a separator character, keeping empty chunks;
models Go `strings.Split(path, "/")` in parseImageName. -/
def splitOnChar (sep : Char) : List Char → List (List Char)
  | [] => [[]]
  | c :: rest =>
    if c = sep then [] :: splitOnChar sep rest
    else
      match splitOnChar sep rest with
      | [] => [[c]]
      | chunk :: chunks => (c :: chunk) :: chunks

def defaultDomain : List Char := str "docker.io"

def legacyDefaultDomain : List Char := str "index.docker.io"

def localhostName : List Char := str "localhost"

def libraryRepo : List Char := str "library/"

/-- Modelled from the spec: the external reference normalizer
(`reference.ParseNormalizedNamed` of the canonical distribution
reference grammar, not part of this repository) splits an implicit or
explicit domain off the familiar name, consistent with Docker Hub
conventions: a first segment before `/` is a registry domain only if it
contains a dot or a colon, is `localhost`, or has an uppercase letter;
otherwise the default domain `docker.io` applies, and a bare single-segment
repository gains the `library/` prefix.  The legacy `index.docker.io`
domain is rewritten to `docker.io`. -/
def splitDockerDomain (name : List Char) : List Char × List Char :=
  let dr :=
    match name.findIdx? (fun c => c == '/') with
    | none => (defaultDomain, name)
    | some i =>
      let pre := name.take i
      if ¬ pre.contains '.' ∧ ¬ pre.contains ':' ∧ pre ≠ localhostName
          ∧ pre.all (fun c => c.toLower == c) then
        (defaultDomain, name)
      else
        (pre, name.drop (i + 1))
  let domain := if dr.1 = legacyDefaultDomain then defaultDomain else dr.1
  let remainder :=
    if domain = defaultDomain ∧ ¬ dr.2.contains '/' then libraryRepo ++ dr.2
    else dr.2
  (domain, remainder)

/-- Modelled from the spec: path characters of the canonical reference
grammar (lowercase alphanumerics and the separators `.` `_` `-`). -/
def pathChar (c : Char) : Bool :=
  c.isLower || c.isDigit || c == '.' || c == '_' || c == '-'

/-- A path segment must be non-empty and made of path characters. -/
def validPathSeg (seg : List Char) : Bool :=
  !seg.isEmpty && seg.all pathChar

/-- Modelled from the spec: validity of the repository path component —
every `/`-separated segment is a non-empty run of path characters. -/
def validPath (p : List Char) : Bool :=
  (splitOnChar '/' p).all validPathSeg

def wordChar (c : Char) : Bool := c.isAlphanum || c == '_'

def tagAnnotationChar (c : Char) : Bool := wordChar c || c == '.' || c == '-'

/-- Modelled from the spec: validity of an explicit tag annotation —
non-empty, at most 128 characters, first character a word character,
the rest word characters, dots or dashes. -/
def validTag (t : List Char) : Bool :=
  match t with
  | [] => false
  | c :: rest => wordChar c && rest.all tagAnnotationChar && decide (rest.length + 1 ≤ 128)

/-- Modelled from the spec: validity of a registry domain component. -/
def validDomain (d : List Char) : Bool :=
  !d.isEmpty && d.all (fun c => c.isAlphanum || c == '.' || c == '-' || c == ':')

/-- A normalized named reference: registry domain, repository path and
optional tag annotation (empty list = no tag, as a valid tag is
non-empty). -/
structure NormRef where
  domain : List Char
  path : List Char
  tag : List Char
deriving DecidableEq

/-- Modelled from the spec: the external `reference.ParseNormalizedNamed`.
Splits the implicit/explicit domain, then splits the remainder at the
first colon into the repository path and the tag annotation, and
validates all components against the canonical grammar; failure carries
the original string. -/
def parseNormalizedNamed (s : List Char) : Except ParseError NormRef :=
  match (splitDockerDomain s).2.findIdx? (fun c => c == ':') with
  | none =>
    if validDomain (splitDockerDomain s).1 && validPath (splitDockerDomain s).2 then
      .ok ⟨(splitDockerDomain s).1, (splitDockerDomain s).2, []⟩
    else .error (.invalidReference s)
  | some j =>
    if validDomain (splitDockerDomain s).1 && validPath ((splitDockerDomain s).2.take j)
        && validTag ((splitDockerDomain s).2.drop (j + 1)) then
      .ok ⟨(splitDockerDomain s).1, (splitDockerDomain s).2.take j,
           (splitDockerDomain s).2.drop (j + 1)⟩
    else .error (.invalidReference s)

/-- Models `reference.Domain(parsed)`: the registry domain component. -/
def reference_Domain (ref : NormRef) : List Char := ref.domain

/-- Models `reference.Path(parsed)`: the repository path component,
which carries no leading slash (e.g. the path of
`docker.io/library/redis` is `library/redis`). -/
def reference_Path (ref : NormRef) : List Char := ref.path

/-- parseImageName (pkgs/image/image.go lines 55-59): the final
`/`-separated segment of the repository path.  Go indexes
`pathParts[len(pathParts)-1]`, which is the last element; the split of
any string has at least one part. -/
def parseImageName (ref : NormRef) : List Char :=
  (splitOnChar '/' (reference_Path ref)).getLastD []

/-- parseTag (pkgs/image/image.go lines 62-67): the tag annotation if
the normalized reference carries one, otherwise the empty string. -/
def parseTag (ref : NormRef) : List Char := ref.tag

/-- ImageStruct (pkgs/image/image.go lines 11-17). -/
structure ImageStruct where
  Registry : List Char
  Repository : List Char
  Name : List Char
  Tag : List Char
  Digest : List Char
deriving DecidableEq

/-- ParseImageStr (pkgs/image/image.go lines 20-40): split off the
digest suffix, normalize the remaining name, then extract registry,
repository, name and tag; the digest is whatever splitDigest returned. -/
def ParseImageStr (image : List Char) : Except ParseError ImageStruct :=
  match splitDigest image with
  | .error e => .error e
  | .ok (img, digest) =>
    match parseNormalizedNamed img with
    | .error e => .error e
    | .ok parsed =>
      .ok { Registry := reference_Domain parsed
            Repository := reference_Path parsed
            Name := parseImageName parsed
            Tag := parseTag parsed
            Digest := digest }

/-- getDestTagFormImageStruct (cmd/utis.go lines 250-260): tag defaults
to `latest` when the parsed tag is empty; the destination is
`name:tag` for the default registry `docker.io` and otherwise
`fmt.Sprintf("%s%s:%s", Registry, Repository, tag)` — registry and
repository concatenated directly, with no separator of its own. -/
def getDestTagFormImageStruct (data : ImageStruct) : List Char :=
  let tag := if data.Tag = [] then str "latest" else data.Tag
  if data.Registry = str "docker.io" then data.Name ++ str ":" ++ tag
  else data.Registry ++ data.Repository ++ str ":" ++ tag

/-- getDestTagFromString (cmd/utis.go lines 262-267): an override is
returned unchanged when it contains a colon, otherwise `:latest` is
appended. -/
def getDestTagFromString (s : List Char) : List Char :=
  if s.contains ':' then s else s ++ str ":latest"

/-- Result of buildDestTag.  Go can return a destination, return an
error, or panic at runtime; `panicked` models the slice-out-of-range
panic of an unchecked `Digest[:19]`. -/
inductive TagResult where
  | ok (dest : List Char)
  | err (msg : List Char)
  | panicked
deriving DecidableEq

/-- The message of the digest-requires-explicit-tag error
(cmd/copy.go lines 411-412), carrying the first 19 bytes of the digest. -/
def digestTagErrMsg (digest : List Char) : List Char :=
  str "源镜像名称(redis@" ++ digest.take 19 ++
    str "...) 包含 digest, \n\t需要显示的设置目标tag, 请使用 -t 或者 --tag 参数来设置"

/-- buildDestTag (cmd/copy.go lines 402-413), the spec's `resolve`:
a non-empty override wins via getDestTagFromString; with no digest the
destination comes from getDestTagFormImageStruct; otherwise the Go code
evaluates `parsedImage.Digest[:19]`, which yields the error message
only when the digest has at least 19 bytes and otherwise panics with a
slice bound out of range. -/
def buildDestTag (parsedImage : ImageStruct) (addTag : List Char) : TagResult :=
  if addTag ≠ [] then .ok (getDestTagFromString addTag)
  else if parsedImage.Digest = [] then .ok (getDestTagFormImageStruct parsedImage)
  else if 19 ≤ parsedImage.Digest.length then .err (digestTagErrMsg parsedImage.Digest)
  else .panicked

/-- Error of parseManifestFormat, carrying the rejected format string
(Go: `unknown format %q. Choose one of the supported formats ...`). -/
inductive ManifestFormatErr where
  | unknownFormat (s : List Char)
deriving DecidableEq

/-- Modelled from the spec: the external constant
`imgspecv1.MediaTypeImageManifest`, the native OCI image-manifest media
type. -/
def mediaTypeImageManifest : List Char := str "application/vnd.oci.image.manifest.v1+json"

/-- Modelled from the spec: the external constant
`manifest.DockerV2Schema1SignedMediaType`, the legacy signed
single-manifest media type. -/
def dockerV2Schema1SignedMediaType : List Char :=
  str "application/vnd.docker.distribution.manifest.v1+prettyjws"

/-- Modelled from the spec: the external constant
`manifest.DockerV2Schema2MediaType`, the Docker v2 schema-2 media type. -/
def dockerV2Schema2MediaType : List Char :=
  str "application/vnd.docker.distribution.manifest.v2+json"

/-- parseManifestFormat (cmd/utis.go lines 195-206): exactly the three
inputs `oci`, `v2s1` and `v2s2` map to media types; anything else is an
unknown-format error. -/
def parseManifestFormat (manifestFormat : List Char) : Except ManifestFormatErr (List Char) :=
  if manifestFormat = str "oci" then .ok mediaTypeImageManifest
  else if manifestFormat = str "v2s1" then .ok dockerV2Schema1SignedMediaType
  else if manifestFormat = str "v2s2" then .ok dockerV2Schema2MediaType
  else .error (.unknownFormat manifestFormat)

/-- A Go error value: either a leaf message or a wrapping error built
by `fmt.Errorf` whose format places text around a single `%w`-wrapped
cause.  The wrap chain models Go's `errors.Unwrap`. -/
inductive GoError where
  | base (msg : List Char)
  | wrap (pre : List Char) (cause : GoError) (post : List Char)
deriving DecidableEq

/-- The rendered message of a Go error (what `%v` or `.Error()` shows). -/
def render : GoError → List Char
  | .base m => m
  | .wrap pre cause post => pre ++ render cause ++ post

/-- The innermost error of the wrap chain: the root cause that
`errors.Unwrap` bottoms out at. -/
def rootCause : GoError → GoError
  | .base m => .base m
  | .wrap _ cause _ => rootCause cause

/-- noteCloseFailure (cmd/utis.go lines 144-154): with no primary error
the close error is wrapped as `"%s: %w"`; with a primary error the
primary is kept as the `%w` cause and the close failure is appended as
rendered context, `"%w (%s: %v)"`. -/
def noteCloseFailure (err : Option GoError) (description : List Char) (closeErr : GoError) :
    GoError :=
  match err with
  | none => .wrap (description ++ str ": ") closeErr []
  | some e => .wrap [] e (str " (" ++ description ++ str ": " ++ render closeErr ++ str ")")

/-- The deferred teardown of execCopy (cmd/copy.go lines 37-41): if
`policyContext.Destroy()` fails, the returned error is replaced by
`noteCloseFailure(retErr, "tearing down policy context", err)`;
otherwise the primary result stands. -/
def finishWithTeardown (retErr : Option GoError) (destroyErr : Option GoError) :
    Option GoError :=
  match destroyErr with
  | none => retErr
  | some closeErr => some (noteCloseFailure retErr (str "tearing down policy context") closeErr)

/-- retry.IfNecessary modelled on attempt outcomes: run the operation;
on failure retry while attempts remain, returning the last error and
the number of invocations of the operation. -/
def runRetry (outcome : Nat → Option GoError) : Nat → Nat → Option GoError × Nat
  | attempt, 0 => (outcome attempt, 1)
  | attempt, n + 1 =>
    match outcome attempt with
    | none => (none, 1)
    | some _ =>
      let r := runRetry outcome (attempt + 1) n
      (r.1, r.2 + 1)

/-- execCopy (cmd/copy.go lines 26-84) as a step skeleton over the
outcomes of its collaborators: argument-count check, policy-context
acquisition (whose failure is wrapped and skips the teardown, which is
only deferred after acquisition), source and destination builders,
manifest-format resolution, then the retried copy.  Returns the final
error (after merging a teardown failure) and the number of copy
attempts performed. -/
def execCopyModel (argsLen : Nat) (policy : Except GoError Unit)
    (srcBuild : Except GoError Unit) (destBuild : Except GoError Unit)
    (formatFlag : Option (List Char)) (copyOutcome : Nat → Option GoError)
    (maxRetry : Nat) (destroyErr : Option GoError) : Option GoError × Nat :=
  if argsLen ≠ 1 then (some (.base (str "image is required")), 0)
  else
    match policy with
    | .error e => (some (.base (str "error loading trust policy: " ++ render e)), 0)
    | .ok _ =>
      let body : Option GoError × Nat :=
        match srcBuild with
        | .error e => (some e, 0)
        | .ok _ =>
          match destBuild with
          | .error e => (some e, 0)
          | .ok _ =>
            match formatFlag with
            | none => runRetry copyOutcome 0 maxRetry
            | some f =>
              match parseManifestFormat f with
              | .error (.unknownFormat s) => (some (.base (str "unknown format " ++ s)), 0)
              | .ok _ => runRetry copyOutcome 0 maxRetry
      (finishWithTeardown body.1 destroyErr, body.2)

/-! Helper lemmas. -/

theorem splitOnChar_ne_nil (sep : Char) (l : List Char) : splitOnChar sep l ≠ [] := by
  induction l with
  | nil => simp [splitOnChar]
  | cons c rest ih =>
    unfold splitOnChar
    split_ifs
    · simp
    · cases h : splitOnChar sep rest <;> simp

theorem splitOnChar_singleton (sep : Char) :
    ∀ l chunk, splitOnChar sep l = [chunk] → chunk = l := by
  intro l
  induction l with
  | nil =>
    intro chunk h
    simp [splitOnChar] at h
    exact h
  | cons c rest ih =>
    intro chunk h
    unfold splitOnChar at h
    split_ifs at h with hc
    · obtain ⟨-, hrest⟩ := List.cons.inj h
      exact absurd hrest (splitOnChar_ne_nil sep rest)
    · cases hs : splitOnChar sep rest with
      | nil => exact absurd hs (splitOnChar_ne_nil sep rest)
      | cons b bs =>
        rw [hs] at h
        obtain ⟨h1, h2⟩ := List.cons.inj h
        have hb : b = rest := by
          apply ih
          rw [hs, h2]
        rw [← h1, hb]

theorem lastD_mem {α : Type} : ∀ (l : List α) (d : α), l ≠ [] → l.getLastD d ∈ l := by
  intro l
  induction l with
  | nil => intro d h; exact absurd rfl h
  | cons c rest ih =>
    intro d _
    rw [List.getLastD_cons]
    cases hr : rest with
    | nil => simp
    | cons b bs =>
      have := ih c (by rw [hr]; simp)
      rw [hr] at this
      exact List.mem_cons_of_mem c (by rw [← hr] at this ⊢; exact this)

theorem lastD_indep {α : Type} : ∀ (l : List α) (a b : α), l ≠ [] → l.getLastD a = l.getLastD b := by
  intro l a b h
  cases l with
  | nil => exact absurd rfl h
  | cons c rest => rw [List.getLastD_cons, List.getLastD_cons]

theorem lastD_splitOnChar_suffix (sep : Char) :
    ∀ l, (splitOnChar sep l).getLastD [] <:+ l := by
  intro l
  induction l with
  | nil => simp [splitOnChar]
  | cons c rest ih =>
    unfold splitOnChar
    split_ifs with hc
    · rw [List.getLastD_cons]
      exact ih.trans (List.suffix_cons c rest)
    · cases hs : splitOnChar sep rest with
      | nil => exact absurd hs (splitOnChar_ne_nil sep rest)
      | cons b bs =>
        rw [List.getLastD_cons]
        by_cases hbs : bs = []
        · subst hbs
          have hb : b = rest := splitOnChar_singleton sep rest b (by rw [hs])
          rw [List.getLastD_nil, hb]
        · rw [lastD_indep bs (c :: b) b hbs]
          have hsuf : (splitOnChar sep rest).getLastD [] <:+ rest := ih
          rw [hs, List.getLastD_cons] at hsuf
          exact hsuf.trans (List.suffix_cons c rest)

theorem validPath_lastD_ne_nil (p : List Char) (h : validPath p = true) :
    (splitOnChar '/' p).getLastD [] ≠ [] := by
  have hne := splitOnChar_ne_nil '/' p
  have hmem := lastD_mem (splitOnChar '/' p) [] hne
  have hseg : validPathSeg ((splitOnChar '/' p).getLastD []) = true := by
    unfold validPath at h
    exact List.all_eq_true.mp h _ hmem
  intro hc
  rw [hc] at hseg
  simp [validPathSeg] at hseg

theorem parseNormalizedNamed_error_shape (s : List Char) (e : ParseError)
    (h : parseNormalizedNamed s = .error e) : e = .invalidReference s := by
  unfold parseNormalizedNamed at h
  split at h <;> split_ifs at h
  all_goals try exact Except.noConfusion h
  all_goals exact (Except.error.inj h).symm

theorem parseNormalizedNamed_ok_validPath (s : List Char) (r : NormRef)
    (h : parseNormalizedNamed s = .ok r) : validPath r.path = true := by
  unfold parseNormalizedNamed at h
  split at h <;> split_ifs at h with hv
  all_goals
    first
      | exact Except.noConfusion h
      | (have hr := Except.ok.inj h
         subst hr
         simp only [Bool.and_eq_true] at hv
         first
           | exact hv.2
           | exact hv.1.2)

theorem splitDigest_invalidDigestFormat_iff (s : List Char) :
    splitDigest s = .error .invalidDigestFormat ↔
      containsMarker s = true ∧ (splitMarker s).length ≠ 2 := by
  unfold splitDigest
  split_ifs <;> simp_all

theorem ParseImageStr_split_error (s : List Char) (e : ParseError)
    (h : splitDigest s = .error e) : ParseImageStr s = .error e := by
  unfold ParseImageStr
  rw [h]

theorem ParseImageStr_norm_error (s img d : List Char) (e : ParseError)
    (h1 : splitDigest s = .ok (img, d)) (h2 : parseNormalizedNamed img = .error e) :
    ParseImageStr s = .error e := by
  have hstep : ParseImageStr s =
      match parseNormalizedNamed img with
      | .error e => .error e
      | .ok parsed =>
        .ok ⟨reference_Domain parsed, reference_Path parsed, parseImageName parsed,
             parseTag parsed, d⟩ := by
    unfold ParseImageStr
    rw [h1]
  rw [hstep, h2]

theorem ParseImageStr_ok_eq (s img d : List Char) (r : NormRef)
    (h1 : splitDigest s = .ok (img, d)) (h2 : parseNormalizedNamed img = .ok r) :
    ParseImageStr s =
      .ok ⟨reference_Domain r, reference_Path r, parseImageName r, parseTag r, d⟩ := by
  have hstep : ParseImageStr s =
      match parseNormalizedNamed img with
      | .error e => .error e
      | .ok parsed =>
        .ok ⟨reference_Domain parsed, reference_Path parsed, parseImageName parsed,
             parseTag parsed, d⟩ := by
    unfold ParseImageStr
    rw [h1]
  rw [hstep, h2]

/-! Claim theorems. -/

/-- C7: parse fails with the invalid-digest-format error exactly when
the input contains the marker `@sha256:` and splitting on it does not
yield exactly two segments; in particular a single marker with an empty
hex suffix is not rejected at this step. -/
theorem c7_invalid_digest_format_iff (s : List Char) :
    ParseImageStr s = .error .invalidDigestFormat ↔
      containsMarker s = true ∧ (splitMarker s).length ≠ 2 := by
  constructor
  · intro h
    rcases hsd : splitDigest s with e | ⟨img, d⟩
    · have heq := ParseImageStr_split_error s e hsd
      rw [heq] at h
      have he := Except.error.inj h
      rw [he] at hsd
      exact (splitDigest_invalidDigestFormat_iff s).mp hsd
    · rcases hpn : parseNormalizedNamed img with e | r
      · have heq := ParseImageStr_norm_error s img d e hsd hpn
        rw [heq] at h
        have he := Except.error.inj h
        have hsh := parseNormalizedNamed_error_shape img e hpn
        rw [hsh] at he
        exact ParseError.noConfusion he
      · have heq := ParseImageStr_ok_eq s img d r hsd hpn
        rw [heq] at h
        exact Except.noConfusion h
  · intro hrhs
    exact ParseImageStr_split_error s .invalidDigestFormat
      ((splitDigest_invalidDigestFormat_iff s).mpr hrhs)

/-- C7 witness: an input with two markers is rejected with the
invalid-digest-format error. -/
theorem c7_invalid_digest_format_iff_witness :
    ParseImageStr (str "a@sha256:b@sha256:c") = .error .invalidDigestFormat :=
  (c7_invalid_digest_format_iff (str "a@sha256:b@sha256:c")).mpr ⟨by decide, by decide⟩

/-- C2 counterexample: the input `redis:v1@sha256:<64 hex>` carries a
tag annotation in its name portion, so parse accepts it with a
non-empty tag `v1` next to the digest — the claim says the tag is
always empty. -/
theorem c2_tag_survives_digest_strip :
    ParseImageStr
        (str "redis:v1@sha256:aaaaaaaaaaaaaaaaaaaaaaaaaaaaaaaaaaaaaaaaaaaaaaaaaaaaaaaaaaaaaaaa") =
      .ok ⟨str "docker.io", str "library/redis", str "redis", str "v1",
           str "sha256:aaaaaaaaaaaaaaaaaaaaaaaaaaaaaaaaaaaaaaaaaaaaaaaaaaaaaaaaaaaaaaaa"⟩ ∧
    (str "v1").isEmpty = false := by decide

/-- C2 (amended): for every accepted input that splits on the marker
into exactly a name portion and a suffix, the digest is `sha256:` plus
the suffix, and the tag is whatever tag annotation the name portion
carries under normalization (empty when it carries none). -/
theorem c2_digest_and_tag_from_name_portion :
    ∀ (s n hx : List Char) (info : ImageStruct),
      splitMarker s = [n, hx] →
      ParseImageStr s = .ok info →
      info.Digest = str "sha256:" ++ hx ∧
        ∃ r, parseNormalizedNamed n = .ok r ∧ info.Tag = parseTag r := by
  intro s n hx info hsm hok
  have hc : containsMarker s = true := by
    unfold containsMarker
    rw [hsm]
    rfl
  have hsd : splitDigest s = .ok (n, sha256Head ++ hx) := by
    unfold splitDigest
    rw [hc, hsm]
    simp
  rcases hpn : parseNormalizedNamed n with e | r
  · have heq := ParseImageStr_norm_error s n (sha256Head ++ hx) e hsd hpn
    rw [heq] at hok
    exact Except.noConfusion hok
  · have heq := ParseImageStr_ok_eq s n (sha256Head ++ hx) r hsd hpn
    rw [heq] at hok
    have hinj := Except.ok.inj hok
    refine ⟨?_, r, rfl, ?_⟩
    · rw [← hinj]
      rfl
    · rw [← hinj]

/-- C2 amended witness: concrete application to `redis@sha256:<64 hex>`,
whose name portion carries no tag, so the parsed tag is empty. -/
theorem c2_digest_and_tag_from_name_portion_witness :
    (⟨str "docker.io", str "library/redis", str "redis", [],
        str "sha256:aaaaaaaaaaaaaaaaaaaaaaaaaaaaaaaaaaaaaaaaaaaaaaaaaaaaaaaaaaaaaaaa"⟩ :
        ImageStruct).Digest =
        str "sha256:" ++ str "aaaaaaaaaaaaaaaaaaaaaaaaaaaaaaaaaaaaaaaaaaaaaaaaaaaaaaaaaaaaaaaa" ∧
      ∃ r, parseNormalizedNamed (str "redis") = .ok r ∧
        (⟨str "docker.io", str "library/redis", str "redis", [],
            str "sha256:aaaaaaaaaaaaaaaaaaaaaaaaaaaaaaaaaaaaaaaaaaaaaaaaaaaaaaaaaaaaaaaa"⟩ :
            ImageStruct).Tag = parseTag r :=
  c2_digest_and_tag_from_name_portion
    (str "redis@sha256:aaaaaaaaaaaaaaaaaaaaaaaaaaaaaaaaaaaaaaaaaaaaaaaaaaaaaaaaaaaaaaaa")
    (str "redis") (str "aaaaaaaaaaaaaaaaaaaaaaaaaaaaaaaaaaaaaaaaaaaaaaaaaaaaaaaaaaaaaaaa")
    ⟨str "docker.io", str "library/redis", str "redis", [],
      str "sha256:aaaaaaaaaaaaaaaaaaaaaaaaaaaaaaaaaaaaaaaaaaaaaaaaaaaaaaaaaaaaaaaa"⟩
    (by decide) (by decide)

/-- C10: for every accepted input, the Name field is exactly the final
slash-separated segment of the Repository field, it is non-empty, and
it is a suffix of the repository path. -/
theorem c10_name_is_last_repository_segment :
    ∀ (s : List Char) (info : ImageStruct),
      ParseImageStr s = .ok info →
      info.Name = (splitOnChar '/' info.Repository).getLastD [] ∧
        info.Name ≠ [] ∧ info.Name <:+ info.Repository := by
  intro s info hok
  rcases hsd : splitDigest s with e | ⟨img, d⟩
  · have heq := ParseImageStr_split_error s e hsd
    rw [heq] at hok
    exact Except.noConfusion hok
  · rcases hpn : parseNormalizedNamed img with e | r
    · have heq := ParseImageStr_norm_error s img d e hsd hpn
      rw [heq] at hok
      exact Except.noConfusion hok
    · have heq := ParseImageStr_ok_eq s img d r hsd hpn
      rw [heq] at hok
      have hinj := Except.ok.inj hok
      have hvp : validPath r.path = true := parseNormalizedNamed_ok_validPath img r hpn
      rw [← hinj]
      exact ⟨rfl, validPath_lastD_ne_nil r.path hvp, lastD_splitOnChar_suffix '/' r.path⟩

/-- C10 witness: concrete application to `redis`. -/
theorem c10_name_is_last_repository_segment_witness :
    (⟨str "docker.io", str "library/redis", str "redis", [], []⟩ : ImageStruct).Name =
        (splitOnChar '/'
          (⟨str "docker.io", str "library/redis", str "redis", [], []⟩ : ImageStruct).Repository).getLastD [] ∧
      (⟨str "docker.io", str "library/redis", str "redis", [], []⟩ : ImageStruct).Name ≠ [] ∧
      (⟨str "docker.io", str "library/redis", str "redis", [], []⟩ : ImageStruct).Name <:+
        (⟨str "docker.io", str "library/redis", str "redis", [], []⟩ : ImageStruct).Repository :=
  c10_name_is_last_repository_segment (str "redis")
    ⟨str "docker.io", str "library/redis", str "redis", [], []⟩ (by decide)

/-- C1: the code drops the `/` between registry and repository — for
`myregistry.example.com/team/app:v1` with no override the destination
is `myregistry.example.comteam/app:v1`, not the original reference as
the claim states (the repository path carries no leading slash). -/
theorem c1_registry_separator_dropped :
    ParseImageStr (str "myregistry.example.com/team/app:v1") =
      .ok ⟨str "myregistry.example.com", str "team/app", str "app", str "v1", []⟩ ∧
    buildDestTag ⟨str "myregistry.example.com", str "team/app", str "app", str "v1", []⟩ [] =
      .ok (str "myregistry.example.comteam/app:v1") ∧
    (str "myregistry.example.comteam/app:v1" == str "myregistry.example.com/team/app:v1") =
      false := by decide

/-- C3: for the accepted input `redis@sha256:` the digest is the 7-char
string `sha256:`, shorter than the fixed truncation length 19, and
buildDestTag with an empty override hits the unchecked `Digest[:19]`
slice and panics instead of returning the TagError. -/
theorem c3_short_digest_slice_panics :
    ParseImageStr (str "redis@sha256:") =
      .ok ⟨str "docker.io", str "library/redis", str "redis", [], str "sha256:"⟩ ∧
    (str "sha256:").length < 19 ∧
    buildDestTag ⟨str "docker.io", str "library/redis", str "redis", [], str "sha256:"⟩ [] =
      .panicked := by decide

/-- C4: a parsed image with the non-empty digest `sha256:ab` and an
empty override makes buildDestTag panic on the `Digest[:19]` slice
rather than return the DigestRequiresExplicitTag error, breaking the
claimed if-and-only-if. -/
theorem c4_digest_error_iff_broken :
    ParseImageStr (str "redis@sha256:ab") =
      .ok ⟨str "docker.io", str "library/redis", str "redis", [], str "sha256:ab"⟩ ∧
    (str "sha256:ab").isEmpty = false ∧
    buildDestTag ⟨str "docker.io", str "library/redis", str "redis", [], str "sha256:ab"⟩ [] =
      .panicked := by decide

/-- C5: for any accepted reference without digest or tag, resolving
with an empty override yields a destination ending in `:latest`; in
particular `resolve(parse("redis"), "")` is `redis:latest`. -/
theorem c5_default_latest :
    (∀ (s : List Char) (info : ImageStruct),
        ParseImageStr s = .ok info → info.Digest = [] → info.Tag = [] →
        ∃ p, buildDestTag info [] = .ok (p ++ str ":latest")) ∧
      ParseImageStr (str "redis") =
        .ok ⟨str "docker.io", str "library/redis", str "redis", [], []⟩ ∧
      buildDestTag ⟨str "docker.io", str "library/redis", str "redis", [], []⟩ [] =
        .ok (str "redis:latest") := by
  refine ⟨?_, by decide, by decide⟩
  intro s info hok hdg htg
  unfold buildDestTag
  rw [if_neg (by simp), if_pos hdg]
  unfold getDestTagFormImageStruct
  rw [htg, if_pos rfl]
  by_cases hreg : info.Registry = str "docker.io"
  · rw [if_pos hreg]
    exact ⟨info.Name, by rw [List.append_assoc]; rfl⟩
  · rw [if_neg hreg]
    exact ⟨info.Registry ++ info.Repository, by rw [List.append_assoc]; rfl⟩

/-- C5 witness: concrete application to `redis` with empty override. -/
theorem c5_default_latest_witness :
    ∃ p, buildDestTag ⟨str "docker.io", str "library/redis", str "redis", [], []⟩ [] =
      .ok (p ++ str ":latest") :=
  c5_default_latest.1 (str "redis")
    ⟨str "docker.io", str "library/redis", str "redis", [], []⟩
    (by decide) (by decide) (by decide)

/-- C6: a non-empty override makes buildDestTag ignore the parsed
source image entirely: the result is the override itself when it
contains a colon, and the override with `:latest` appended otherwise. -/
theorem c6_override_wins :
    ∀ (img img2 : ImageStruct) (t : List Char), t ≠ [] →
      buildDestTag img t = .ok (getDestTagFromString t) ∧
      buildDestTag img t = buildDestTag img2 t ∧
      (t.contains ':' = true → buildDestTag img t = .ok t) ∧
      (t.contains ':' = false → buildDestTag img t = .ok (t ++ str ":latest")) := by
  intro img img2 t ht
  have h1 : ∀ i : ImageStruct, buildDestTag i t = .ok (getDestTagFromString t) := by
    intro i
    unfold buildDestTag
    rw [if_pos ht]
  refine ⟨h1 img, (h1 img).trans (h1 img2).symm, ?_, ?_⟩
  · intro hc
    rw [h1 img]
    unfold getDestTagFromString
    rw [hc, if_pos rfl]
  · intro hc
    rw [h1 img]
    unfold getDestTagFromString
    rw [hc, if_neg (by simp)]

/-- C6 witness: `resolve(parse("redis"), "custom:v2")` is `custom:v2`,
and the same override on a different source image gives the same
destination. -/
theorem c6_override_wins_witness :
    buildDestTag ⟨str "docker.io", str "library/redis", str "redis", [], []⟩ (str "custom:v2") =
      .ok (str "custom:v2") := by
  have h := (c6_override_wins
    ⟨str "docker.io", str "library/redis", str "redis", [], []⟩
    ⟨str "a", str "b", str "c", [], []⟩ (str "custom:v2") (by decide)).2.2.1 (by decide)
  exact h

/-- C8: parseManifestFormat maps exactly `oci`, `v2s1` and `v2s2` to
the OCI image-manifest, Docker v2 schema-1 signed and Docker v2
schema-2 media types, errors on every other string, and in the
orchestrator an invalid format aborts before any copy attempt (the
attempt count is 0). -/
theorem c8_manifest_format (s : List Char) :
    parseManifestFormat (str "oci") = .ok mediaTypeImageManifest ∧
    parseManifestFormat (str "v2s1") = .ok dockerV2Schema1SignedMediaType ∧
    parseManifestFormat (str "v2s2") = .ok dockerV2Schema2MediaType ∧
    (s ≠ str "oci" → s ≠ str "v2s1" → s ≠ str "v2s2" →
      parseManifestFormat s = .error (.unknownFormat s)) ∧
    (s ≠ str "oci" → s ≠ str "v2s1" → s ≠ str "v2s2" →
      ∀ (out : Nat → Option GoError) (mr : Nat),
        execCopyModel 1 (.ok ()) (.ok ()) (.ok ()) (some s) out mr none =
          (some (.base (str "unknown format " ++ s)), 0)) := by
  have hpf : s ≠ str "oci" → s ≠ str "v2s1" → s ≠ str "v2s2" →
      parseManifestFormat s = .error (.unknownFormat s) := by
    intro h1 h2 h3
    unfold parseManifestFormat
    rw [if_neg h1, if_neg h2, if_neg h3]
  refine ⟨by decide, by decide, by decide, hpf, ?_⟩
  intro h1 h2 h3 out mr
  have hstep : execCopyModel 1 (.ok ()) (.ok ()) (.ok ()) (some s) out mr none =
      (finishWithTeardown
        (match parseManifestFormat s with
          | .error (.unknownFormat fs) =>
            ((some (.base (str "unknown format " ++ fs)), 0) : Option GoError × Nat)
          | .ok _ => runRetry out 0 mr).1 none,
        (match parseManifestFormat s with
          | .error (.unknownFormat fs) =>
            ((some (.base (str "unknown format " ++ fs)), 0) : Option GoError × Nat)
          | .ok _ => runRetry out 0 mr).2) := by
    unfold execCopyModel
    rw [if_neg (by simp)]
  rw [hstep, hpf h1 h2 h3]
  rfl

/-- C8 witness: the invalid format `v3` is rejected and the
orchestrator performs zero copy attempts for it. -/
theorem c8_manifest_format_witness :
    parseManifestFormat (str "v3") = .error (.unknownFormat (str "v3")) ∧
      execCopyModel 1 (.ok ()) (.ok ()) (.ok ()) (some (str "v3")) (fun _ => none) 3 none =
        (some (.base (str "unknown format " ++ str "v3")), 0) :=
  ⟨(c8_manifest_format (str "v3")).2.2.2.1 (by decide) (by decide) (by decide),
   (c8_manifest_format (str "v3")).2.2.2.2 (by decide) (by decide) (by decide) (fun _ => none) 3⟩

/-- C9: when both a primary error and a teardown error occur, the
returned error keeps the primary as the `%w` root cause and appends the
teardown failure as rendered context; a lone teardown failure is
returned (wrapping the teardown error as cause) rather than dropped;
with no failures no error is returned.  The same holds through the
orchestrator skeleton. -/
theorem c9_teardown_merging (p t : GoError) (out : Nat → Option GoError) :
    finishWithTeardown (some p) (some t) =
      some (.wrap [] p (str " (tearing down policy context: " ++ render t ++ str ")")) ∧
    rootCause (noteCloseFailure (some p) (str "tearing down policy context") t) = rootCause p ∧
    finishWithTeardown none (some t) =
      some (.wrap (str "tearing down policy context: ") t []) ∧
    finishWithTeardown (some p) none = some p ∧
    finishWithTeardown none none = none ∧
    execCopyModel 1 (.ok ()) (.error p) (.ok ()) none out 0 (some t) =
      (some (.wrap [] p (str " (tearing down policy context: " ++ render t ++ str ")")), 0) ∧
    execCopyModel 1 (.ok ()) (.ok ()) (.ok ()) none (fun _ => none) 0 none = (none, 1) := by
  refine ⟨rfl, rfl, rfl, rfl, rfl, ?_, by decide⟩
  unfold execCopyModel
  rw [if_neg (by simp)]
  rfl
